import Mathlib

set_option maxRecDepth 10000

/-!
Verification development for the web-scraper actor (HTTP-first scrape with
browser fallback and optional AI summary).

The source under scrutiny is the actor's route module: URL validation,
the pure HTML extractor (title / description / paragraphs / images / links /
tables / lists / unique components / tech stack), the two heuristic
classifiers, the HTTP and browser fetch strategies, and the orchestrator
`scrapeAndSummarize` with its public error taxonomy.

Modelling conventions:
* Strings are `List Char` (`Str`); `S` injects Lean string literals.
* The HTML parser (cheerio's `load`) and the WHATWG `URL` constructor are
  external platform libraries, so they are abstracted: extraction functions
  receive the raw html string together with its parsed DOM (`List Node`),
  and URL parsing / relative-URL resolution are oracle parameters
  (`parse : Str → Option UrlParts`, `resolve : Str → Str → Option Str`).
  Tag names in the DOM are assumed lowercase, as produced by the parser.
* JS whitespace (`\s`, `trim`) is modelled by the ASCII whitespace class.
* Network, browser driving and timers are effectful; they are modelled by
  explicit outcome parameters: an axios outcome, a navigation outcome, a
  per-attempt rendered-page oracle, and boolean timeout flags standing for
  the `withTimeout` races.  Timeouts surface exactly as the messages
  `HTTP_TIMEOUT` / `BROWSER_TIMEOUT`, as in the source.
-/

namespace Scrap

abbrev Str := List Char

/-- Injects a Lean string literal into the `List Char` string model. -/
def S (s : String) : Str := s.data

/-- ASCII whitespace, modelling the JS `\s` class and `String.trim`. -/
def isWsB (c : Char) : Bool :=
  c = ' ' || c = '\t' || c = '\n' || c = '\r' || c = '\x0b' || c = '\x0c'

/-- Case-lowering of a string, modelling JS `toLowerCase` (ASCII range). -/
def lowerStr (s : Str) : Str := s.map Char.toLower

/-- Tests whether the first string starts with the second (JS `startsWith`). -/
def strStarts : Str → Str → Bool
  | _, [] => true
  | [], _ :: _ => false
  | c :: s, d :: p => c = d && strStarts s p

/-- Substring containment (JS `String.includes`). -/
def containsSub : Str → Str → Bool
  | [], pat => pat.isEmpty
  | c :: rest, pat => strStarts (c :: rest) pat || containsSub rest pat

/-- Drops leading ASCII whitespace. -/
def trimLeft (s : Str) : Str := s.dropWhile isWsB

/-- Drops trailing ASCII whitespace. -/
def trimRight (s : Str) : Str := (s.reverse.dropWhile isWsB).reverse

/-- JS `String.trim`: drops leading and trailing whitespace. -/
def trim (s : Str) : Str := trimRight (trimLeft s)

/-- Worker for `normalizeText`: collapses whitespace runs to single spaces.
The flag records whether a whitespace run is pending before the next
non-whitespace character. -/
def normGo : Bool → Str → Str
  | _, [] => []
  | pending, c :: rest =>
    if isWsB c then normGo true rest
    else (if pending then [' '] else []) ++ c :: normGo false rest

/-- Source `normalizeText`: `String(value).replace(/\s+/g, ' ').trim()`,
with falsy input mapped to the empty string. -/
def normalizeText (s : Str) : Str := normGo false (trimLeft s)

/-- Decimal rendering of a natural number (for `HTTP_ERROR_${status}` etc.). -/
def natToStr (n : Nat) : Str := Nat.toDigits 10 n

/-! ## The DOM model

cheerio's parsed document is a tree of elements and text nodes.  Selector
matching used by the source is by tag name (plus two `meta[...]` attribute
selectors), queries return matches in document (preorder) order, and
`.text()` concatenates the text nodes of a subtree. -/

/-- A DOM node: a text node or an element with tag, attributes, children. -/
inductive Node where
  | text (s : Str)
  | elem (tag : Str) (attrs : List (Str × Str)) (children : List Node)

/-- Tag of an element node (empty for text nodes). -/
def tagOf : Node → Str
  | .text _ => []
  | .elem t _ _ => t

/-- First attribute with the given name. -/
def lookupAttr : List (Str × Str) → Str → Option Str
  | [], _ => none
  | (k, v) :: rest, name => if k = name then some v else lookupAttr rest name

/-- The `attr` accessor of an element (none on text nodes / missing attr). -/
def attrOf (n : Node) (name : Str) : Option Str :=
  match n with
  | .text _ => none
  | .elem _ attrs _ => lookupAttr attrs name

mutual

/-- Concatenated text content of a node's subtree (cheerio `.text()`). -/
def textOf : Node → Str
  | .text s => s
  | .elem _ _ ch => textOfList ch

/-- Concatenated text content of a node sequence. -/
def textOfList : List Node → Str
  | [] => []
  | n :: ns => textOf n ++ textOfList ns

end

mutual

/-- Elements of a subtree (self included) whose tag is in `tags`, in
preorder, modelling tag-group selectors such as `$('ul, ol')`. -/
def subtreeElems (tags : List Str) : Node → List Node
  | .text _ => []
  | .elem t a ch => (if t ∈ tags then [Node.elem t a ch] else []) ++ subtreeElemsList tags ch

/-- Elements with tags in `tags` over a forest, in document order. -/
def subtreeElemsList (tags : List Str) : List Node → List Node
  | [] => []
  | n :: ns => subtreeElems tags n ++ subtreeElemsList tags ns

end

/-- The `find` of cheerio on an element: matching strict descendants. -/
def findTags (tags : List Str) (n : Node) : List Node :=
  match n with
  | .text _ => []
  | .elem _ _ ch => subtreeElemsList tags ch

mutual

/-- Collects `tr` descendants that sit below a `sect`-tagged ancestor within
the traversed subtree, modelling the scoped selectors `thead tr` and
`tbody tr` of `$table.find(...)`. -/
def sectTrs (sect : Str) (inSect : Bool) : Node → List Node
  | .text _ => []
  | .elem t a ch =>
    (if inSect && t == S "tr" then [Node.elem t a ch] else [])
      ++ sectTrsList sect (inSect || t == sect) ch

/-- Forest version of `sectTrs`. -/
def sectTrsList (sect : Str) (inSect : Bool) : List Node → List Node
  | [] => []
  | n :: ns => sectTrs sect inSect n ++ sectTrsList sect inSect ns

end

/-- All `tr` descendants of `n` lying inside a `sect` section of `n`. -/
def trsUnder (sect : Str) (n : Node) : List Node :=
  match n with
  | .text _ => []
  | .elem _ _ ch => sectTrsList sect false ch

/-- Serialization of an attribute list. -/
def serializeAttrs : List (Str × Str) → Str
  | [] => []
  | (k, v) :: rest => (' ' :: k ++ ('=' :: '\x22' :: v) ++ ['\x22']) ++ serializeAttrs rest

mutual

/-- Serialization of a node back to HTML text, modelling `$.html(el)`. -/
def serializeNode : Node → Str
  | .text s => s
  | .elem t a ch =>
    ('<' :: t) ++ serializeAttrs a ++ ['>'] ++ serializeList ch ++ (S "</" ++ t ++ ['>'])

/-- Serialization of a node sequence. -/
def serializeList : List Node → Str
  | [] => []
  | n :: ns => serializeNode n ++ serializeList ns

end

/-- Normalized text content of a node. -/
def normText (n : Node) : Str := normalizeText (textOf n)

/-! ## Extraction records -/

/-- A table record produced by `extractTables`. -/
structure TableRec where
  caption : Str
  headers : List Str
  rows : List (List Str)
  rowCount : Nat
  colCount : Nat
  html : Str
deriving DecidableEq

/-- A list record produced by `extractLists`. -/
structure ListRec where
  type : Str
  items : List Str
  itemCount : Nat
  html : Str
deriving DecidableEq

/-- A unique-component record: display name and (truncated) content. -/
structure Component where
  name : Str
  content : Str
deriving DecidableEq

/-- A link record `{url, text}`. -/
structure LinkRec where
  url : Str
  text : Str
deriving DecidableEq

/-- A detected technology signal `{name, icon}`. -/
structure TechRec where
  name : Str
  icon : Str
deriving DecidableEq

/-- The full result of `extractFromHtml`, `_bodyTextLength` included. -/
structure ExtractedDocument where
  title : Str
  description : Str
  paragraphs : List Str
  images : List Str
  links : List LinkRec
  tables : List TableRec
  lists : List ListRec
  uniqueComponents : List Component
  techStack : List TechRec
  rawHtml : Str
  bodyTextLength : Nat
deriving DecidableEq

/-- The extraction result after `const { _bodyTextLength, ...rest } = extracted`:
every field of `ExtractedDocument` except the internal body-text length. -/
structure PublicDocument where
  title : Str
  description : Str
  paragraphs : List Str
  images : List Str
  links : List LinkRec
  tables : List TableRec
  lists : List ListRec
  uniqueComponents : List Component
  techStack : List TechRec
  rawHtml : Str
deriving DecidableEq

/-- Drops the internal `_bodyTextLength` field, keeping everything else. -/
def stripDoc (d : ExtractedDocument) : PublicDocument :=
  { title := d.title
    description := d.description
    paragraphs := d.paragraphs
    images := d.images
    links := d.links
    tables := d.tables
    lists := d.lists
    uniqueComponents := d.uniqueComponents
    techStack := d.techStack
    rawHtml := d.rawHtml }

/-! ## Capped accumulation

The `each` loops of `extractTables` / `extractLists` check the output
length against the cap at the top of every iteration and skip (but keep
iterating) once the cap is reached. -/

/-- One iteration of a cap-checked `each` loop. -/
def cappedStep (cap : Nat) (step : α → Option β) (acc : List β) (x : α) : List β :=
  if cap ≤ acc.length then acc
  else
    match step x with
    | none => acc
    | some b => acc ++ [b]

/-- A cap-checked `each` loop over `xs` starting from the empty output. -/
def cappedFold (cap : Nat) (step : α → Option β) (xs : List α) : List β :=
  xs.foldl (cappedStep cap step) []

/-! ## Table extraction -/

/-- Header cells of the first `thead tr` of a table (empty when absent). -/
def theadCells (tbl : Node) : List Node :=
  match (trsUnder (S "thead") tbl).head? with
  | some tr0 => findTags [S "th", S "td"] tr0
  | none => []

/-- Fallback header detection: the first `tr`'s cells, used only when that
row contains a `th`. -/
def firstRowHeaderCells (tbl : Node) : List Str :=
  match (findTags [S "tr"] tbl).head? with
  | some fr =>
    if 0 < (findTags [S "th"] fr).length then
      ((findTags [S "th", S "td"] fr).map normText).take 20
    else []
  | none => []

/-- Header detection: prefer the cells of the first `thead tr`; else, if the
first `tr` contains a `th`, use its cells; else no headers.  Cells are
normalized and capped at `MAX_TABLE_COLS = 20`. -/
def tableHeaders (tbl : Node) : List Str :=
  if 0 < (theadCells tbl).length then ((theadCells tbl).map normText).take 20
  else firstRowHeaderCells tbl

/-- Cells of one data row: normalized `th, td` texts, capped at 20, with
empty cells dropped (slice before filter, as in the source). -/
def tableRowCells (tr : Node) : List Str :=
  (((findTags [S "th", S "td"] tr).map normText).take 20).filter (fun v => 0 < v.length)

/-- Normalized text of the first `caption` descendant (empty when absent). -/
def tableCaption (tbl : Node) : Str :=
  match (findTags [S "caption"] tbl).head? with
  | some c => normText c
  | none => []

/-- The data-row node list: `tbody tr` when present, else all `tr`. -/
def tableAllRows (tbl : Node) : List Node :=
  if 0 < (trsUnder (S "tbody") tbl).length then trsUnder (S "tbody") tbl
  else findTags [S "tr"] tbl

/-- One iteration of the data-row loop: the first row is skipped when it was
consumed as headers (headers present without an explicit `thead tr`), and
rows with no non-empty cells are not pushed. -/
def tableRowStep (headers : List Str) (theadTrCount : Nat) (p : Nat × Node) :
    Option (List Str) :=
  if p.1 = 0 ∧ 0 < headers.length ∧ theadTrCount = 0 then none
  else if (tableRowCells p.2).length = 0 then none
  else some (tableRowCells p.2)

/-- The extracted data rows of one table, capped at `MAX_TABLE_ROWS = 50`. -/
def tableRows (tbl : Node) : List (List Str) :=
  cappedFold 50 (tableRowStep (tableHeaders tbl) (trsUnder (S "thead") tbl).length)
    (tableAllRows tbl).enum

/-- Extraction of one `table` element; `none` when both headers and rows
come out empty (such tables are not pushed). -/
def mkTable (tbl : Node) : Option TableRec :=
  if (tableHeaders tbl).length = 0 ∧ (tableRows tbl).length = 0 then none
  else some
    { caption := tableCaption tbl
      headers := tableHeaders tbl
      rows := tableRows tbl
      rowCount := (tableRows tbl).length
      colCount := (tableRows tbl).foldl (fun m r => max m r.length) (tableHeaders tbl).length
      html := serializeNode tbl }

/-- Source `extractTables`: all `table` elements, capped at `MAX_TABLES = 10`. -/
def extractTables (dom : List Node) : List TableRec :=
  cappedFold 10 mkTable (subtreeElemsList [S "table"] dom)

/-! ## List extraction -/

/-- Normalized non-empty `li` texts of one list, capped at
`MAX_LIST_ITEMS = 60` (filter before slice, as in the source). -/
def listItems (lst : Node) : List Str :=
  (((findTags [S "li"] lst).map normText).filter (fun t => 0 < t.length)).take 60

/-- The `type` discriminator of a list element: `ol` when so tagged, else `ul`. -/
def listType (lst : Node) : Str :=
  if tagOf lst = S "ol" then S "ol" else S "ul"

/-- Extraction of one `ul` / `ol` element; `none` when no non-empty items. -/
def mkList (lst : Node) : Option ListRec :=
  if (listItems lst).length = 0 then none
  else some
    { type := listType lst
      items := listItems lst
      itemCount := (listItems lst).length
      html := serializeNode lst }

/-- Source `extractLists`: all `ul, ol` elements, capped at `MAX_LISTS = 30`. -/
def extractLists (dom : List Node) : List ListRec :=
  cappedFold 30 mkList (subtreeElemsList [S "ul", S "ol"] dom)

/-! ## Unique-component extraction -/

/-- The candidate selector tag group of `extractUniqueComponents`. -/
def candidateTags : List Str :=
  [S "h1", S "h2", S "h3", S "h4", S "h5", S "h6",
   S "blockquote", S "pre", S "code",
   S "form", S "button", S "input", S "select", S "textarea",
   S "header", S "nav", S "main", S "section", S "article", S "aside", S "footer",
   S "iframe", S "video", S "audio"]

/-- Tags skipped by the component loop. -/
def skipTags : List Str :=
  [S "p", S "a", S "img", S "table", S "ul", S "ol"]

/-- Attribute names summarized by `pickAttrs`. -/
def pickAttrsNames : List Str :=
  [S "type", S "name", S "id", S "placeholder", S "value",
   S "aria-label", S "role", S "title"]

/-- Source `pickAttrs`: `attr=value` fragments for present, non-empty
attributes, joined by a vertical-bar separator. -/
def pickAttrs (el : Node) : Str :=
  let parts := pickAttrsNames.foldl
    (fun acc a =>
      match attrOf el a with
      | some v => if 0 < v.length then acc ++ [a ++ ('=' :: normalizeText v)] else acc
      | none => acc)
    []
  List.intercalate (S " | ") parts

/-- Name and full (pre-truncation) content of one candidate element, or
`none` when the element is skipped (skip tag or empty content). -/
def componentNameContent (el : Node) : Option (Str × Str) :=
  let tag := lowerStr (tagOf el)
  if tag.length = 0 ∨ tag ∈ skipTags then none
  else
    let name :=
      if tag = S "input" then
        let t := normalizeText ((attrOf el (S "type")).getD [])
        if 0 < t.length then S "input[type=" ++ t ++ [']'] else tag
      else tag
    let content0 := normalizeText (textOf el)
    let content1 :=
      if 0 < content0.length then content0
      else
        let a1 := normalizeText ((attrOf el (S "aria-label")).getD [])
        let a2 := normalizeText ((attrOf el (S "placeholder")).getD [])
        let a3 := normalizeText ((attrOf el (S "title")).getD [])
        if 0 < a1.length then a1
        else if 0 < a2.length then a2
        else if 0 < a3.length then a3
        else []
    let attrsText := pickAttrs el
    let content :=
      if 0 < attrsText.length then
        (if 0 < content1.length then content1 ++ (S " (" ++ attrsText ++ [')'])
         else attrsText)
      else content1
    if content.length = 0 then none else some (name, content)

/-- The component `each` loop: cap check first, then skip/dedup, then push
with the content truncated to 300 characters.  The dedup key joins the name
and the full pre-truncation content. -/
def componentsGo : List Node → List Str → List Component → List Component
  | [], _, out => out
  | el :: rest, seen, out =>
    if 80 ≤ out.length then componentsGo rest seen out
    else
      match componentNameContent el with
      | none => componentsGo rest seen out
      | some (name, content) =>
        if name ++ (S "::" ++ content) ∈ seen then componentsGo rest seen out
        else componentsGo rest ((name ++ (S "::" ++ content)) :: seen)
          (out ++ [⟨name, content.take 300⟩])

/-- Source `extractUniqueComponents` over a parsed document. -/
def extractUniqueComponents (dom : List Node) : List Component :=
  componentsGo (subtreeElemsList candidateTags dom) [] []

/-! ## Remaining extraction pieces -/

/-- Source `detectTechStack`: fixed catalog of case-insensitive substring
signatures over the page markup and the host URL. -/
def detectTechStack (html url : Str) : List TechRec :=
  let lowerHtml := lowerStr html
  let has := fun (p : String) => containsSub lowerHtml (S p)
  ([] : List TechRec)
  ++ (if has "react" || has "_next" || has "__next" then
        (if has "_next" then [⟨S "Next.js", S "Next"⟩] else [⟨S "React", S "React"⟩])
      else [])
  ++ (if has "vue" || has "nuxt" then
        [⟨(if has "nuxt" then S "Nuxt.js" else S "Vue.js"), S "Vue"⟩] else [])
  ++ (if has "angular" || has "ng-version" then [⟨S "Angular", S "Angular"⟩] else [])
  ++ (if has "svelte" then [⟨S "Svelte", S "Svelte"⟩] else [])
  ++ (if has "bootstrap" then [⟨S "Bootstrap", S "Bootstrap"⟩] else [])
  ++ (if has "tailwind" then [⟨S "Tailwind CSS", S "Tailwind"⟩] else [])
  ++ (if has "material-ui" || has "mui" then [⟨S "Material-UI", S "MUI"⟩] else [])
  ++ (if has "wordpress" || has "wp-content" then [⟨S "WordPress", S "WP"⟩] else [])
  ++ (if has "shopify" then [⟨S "Shopify", S "Shopify"⟩] else [])
  ++ (if has "wix" then [⟨S "Wix", S "Wix"⟩] else [])
  ++ (if has "google-analytics" || has "gtag" then [⟨S "Google Analytics", S "GA"⟩] else [])
  ++ (if has "jquery" then [⟨S "jQuery", S "jQuery"⟩] else [])
  ++ (if has "cloudflare" then [⟨S "Cloudflare", S "CF"⟩] else [])
  ++ (if has "gatsby" then [⟨S "Gatsby", S "Gatsby"⟩] else [])
  ++ (if has "remix" then [⟨S "Remix", S "Remix"⟩] else [])
  ++ (if containsSub url (S "vercel.app") then [⟨S "Vercel", S "Vercel"⟩] else [])
  ++ (if containsSub url (S "netlify.app") then [⟨S "Netlify", S "Netlify"⟩] else [])
  ++ (if containsSub url (S "github.io") then [⟨S "GitHub Pages", S "GitHub"⟩] else [])

/-- One `img` element's contribution: `src` falling back to `data-src`,
resolved against the base URL, kept raw when it already looks absolute. -/
def imageEntry (resolve : Str → Str → Option Str) (url : Str) (el : Node) : Option Str :=
  let src :=
    match attrOf el (S "src") with
    | some v =>
      if 0 < v.length then some v
      else
        match attrOf el (S "data-src") with
        | some w => if 0 < w.length then some w else none
        | none => none
    | none =>
      match attrOf el (S "data-src") with
      | some w => if 0 < w.length then some w else none
      | none => none
  match src with
  | none => none
  | some s =>
    match resolve s url with
    | some href => some href
    | none => if strStarts s (S "http") then some s else none

/-- Source image extraction: all `img` elements, capped at 20. -/
def extractImages (resolve : Str → Str → Option Str) (url : Str) (dom : List Node) : List Str :=
  ((subtreeElemsList [S "img"] dom).filterMap (imageEntry resolve url)).take 20

/-- One `a` element's contribution: fragment-only and script-scheme hrefs
dropped, href resolved against the base URL, text falling back to the href. -/
def linkEntry (resolve : Str → Str → Option Str) (url : Str) (el : Node) : Option LinkRec :=
  match attrOf el (S "href") with
  | none => none
  | some href =>
    if href.length = 0 then none
    else if strStarts href (S "#") then none
    else if strStarts href (S "javascript:") then none
    else
      let text := trim (textOf el)
      match resolve href url with
      | some r => some ⟨r, if 0 < text.length then text else href⟩
      | none =>
        if strStarts href (S "http") then some ⟨href, if 0 < text.length then text else href⟩
        else none

/-- Source link extraction: all `a` elements, capped at 50. -/
def extractLinks (resolve : Str → Str → Option Str) (url : Str) (dom : List Node) : List LinkRec :=
  ((subtreeElemsList [S "a"] dom).filterMap (linkEntry resolve url)).take 50

/-- Title fallback chain: document titles, else first `h1`, else placeholder. -/
def extractTitle (dom : List Node) : Str :=
  let t1 := trim (textOfList (subtreeElemsList [S "title"] dom))
  if 0 < t1.length then t1
  else
    let t2 :=
      match (subtreeElemsList [S "h1"] dom).head? with
      | some h => trim (textOf h)
      | none => []
    if 0 < t2.length then t2 else S "No title found"

/-- First `meta` element whose attribute `attrName` equals `attrVal`. -/
def metaFirst (dom : List Node) (attrName attrVal : Str) : Option Node :=
  (subtreeElemsList [S "meta"] dom).find? (fun m => decide (attrOf m attrName = some attrVal))

/-- Description fallback chain: meta description, og:description, first
paragraph truncated to 160 characters, else empty. -/
def extractDescription (dom : List Node) : Str :=
  let d1 :=
    match metaFirst dom (S "name") (S "description") with
    | some m => (attrOf m (S "content")).getD []
    | none => []
  if 0 < d1.length then d1
  else
    let d2 :=
      match metaFirst dom (S "property") (S "og:description") with
      | some m => (attrOf m (S "content")).getD []
      | none => []
    if 0 < d2.length then d2
    else
      let d3 :=
        match (subtreeElemsList [S "p"] dom).head? with
        | some p0 => (trim (textOf p0)).take 160
        | none => []
      if 0 < d3.length then d3 else []

/-- Paragraph extraction: the selector `'p, article p, main p, .content p'`
deduplicates to all `p` elements in document order; each text is trimmed and
kept only when longer than 30 characters. -/
def extractParagraphs (dom : List Node) : List Str :=
  ((subtreeElemsList [S "p"] dom).map (fun el => trim (textOf el))).filter
    (fun t => 30 < t.length)

/-- Source `extractFromHtml`: the pure extractor over the raw html string
and its parsed DOM, with relative-URL resolution abstracted by `resolve`. -/
def extractFromHtml (resolve : Str → Str → Option Str) (html : Str) (dom : List Node)
    (url : Str) : ExtractedDocument :=
  { title := extractTitle dom
    description := extractDescription dom
    paragraphs := extractParagraphs dom
    images := extractImages resolve url dom
    links := extractLinks resolve url dom
    tables := extractTables dom
    lists := extractLists dom
    uniqueComponents := extractUniqueComponents dom
    techStack := detectTechStack html url
    rawHtml := html
    bodyTextLength := (trim (textOfList (subtreeElemsList [S "body"] dom))).length }

/-! ## Heuristic classifiers -/

/-- Source `looksBlockedOrJsRequired`: tiny body text or any of the fixed
challenge / bot-wall phrases in the lowercased raw HTML. -/
def looksBlockedOrJsRequired (html : Str) (extracted : ExtractedDocument) : Bool :=
  let lower := lowerStr html
  if extracted.bodyTextLength < 120 then true
  else if containsSub lower (S "enable javascript") then true
  else if containsSub lower (S "please enable cookies") then true
  else if containsSub lower (S "attention required") && containsSub lower (S "cloudflare") then true
  else if containsSub lower (S "cf-chl") || containsSub lower (S "challenge-platform") then true
  else if containsSub lower (S "access denied") then true
  else false

/-- Source `looksEmptyExtraction`: tiny body with almost no paragraphs, or
no paragraphs and at most three links. -/
def looksEmptyExtraction (extracted : ExtractedDocument) : Bool :=
  let paras := extracted.paragraphs.length
  let links := extracted.links.length
  let bodyLen := extracted.bodyTextLength
  if bodyLen < 200 ∧ paras < 2 then true
  else if paras = 0 ∧ links ≤ 3 then true
  else false

/-! ## URL validation -/

/-- The outcome of the platform `new URL(raw)` constructor: the scheme
(with trailing colon, as in `URL.protocol`) and the canonical href. -/
structure UrlParts where
  protocol : Str
  href : Str
deriving DecidableEq

/-- Source `validateScrapeUrl`: parse failure gives `INVALID_URL`, a scheme
other than http/https gives `INVALID_URL_PROTOCOL`, else the canonical href.
The WHATWG parser itself is the oracle `parse`. -/
def validateScrapeUrl (parse : Str → Option UrlParts) (rawUrl : Str) : Except Str Str :=
  match parse rawUrl with
  | none => .error (S "INVALID_URL")
  | some u =>
    if u.protocol ≠ S "http:" ∧ u.protocol ≠ S "https:" then .error (S "INVALID_URL_PROTOCOL")
    else .ok u.href

/-! ## Fetch strategies -/

/-- Result of one fetch strategy: a public document or an error message. -/
inductive FetchResult where
  | ok (doc : PublicDocument)
  | err (msg : Str)
deriving DecidableEq

/-- The outcome of the axios GET (under `validateStatus: status < 500`):
either a response with status and parsed body, or a thrown failure
(network error, 5xx, etc.) with its message. -/
inductive AxiosOutcome where
  | response (status : Nat) (html : Str) (dom : List Node)
  | failure (msg : Str)

/-- Source `scrapeWithHttp`: 4xx statuses become `HTTP_ERROR_<status>`, a
blocked-looking page becomes `JAVASCRIPT_RENDERED`, else the extraction
minus `_bodyTextLength` is returned. -/
def scrapeWithHttp (resolve : Str → Str → Option Str) (ax : AxiosOutcome)
    (url : Str) : FetchResult :=
  match ax with
  | .failure m => .err m
  | .response status html dom =>
    if 400 ≤ status then .err (S "HTTP_ERROR_" ++ natToStr status)
    else if looksBlockedOrJsRequired html (extractFromHtml resolve html dom url) then
      .err (S "JAVASCRIPT_RENDERED")
    else .ok (stripDoc (extractFromHtml resolve html dom url))

/-- Environment inputs to the browser executable resolution. -/
structure BrowserEnv where
  serverless : Bool
  chromiumPath : Str
  envExecPath : Option Str
  platform : Str

/-- Source executable resolution: the bundled chromium path in serverless
environments; otherwise the configured env path, else a platform-specific
default guess, else nothing. -/
def resolveExecPath (benv : BrowserEnv) : Option Str :=
  if benv.serverless then some benv.chromiumPath
  else
    match benv.envExecPath with
    | some p => if 0 < p.length then some p else localGuess benv.platform
    | none => localGuess benv.platform
where
  /-- Common local Chrome paths, by platform. -/
  localGuess (platform : Str) : Option Str :=
    if platform = S "win32" then
      some (S "C:\x5cProgram Files\x5cGoogle\x5cChrome\x5cApplication\x5cchrome.exe")
    else if platform = S "darwin" then
      some (S "/Applications/Google Chrome.app/Contents/MacOS/Google Chrome")
    else none

/-- The `tryExtractLoop` of `scrapeWithBrowser`: up to `remaining` attempts
(6 in the source), each capturing the rendered page of that attempt and
accepting it when neither classifier fires. -/
def browserGo (resolve : Str → Str → Option Str) (pages : Nat → Str × List Node)
    (url : Str) : Nat → Nat → Option ExtractedDocument
  | _, 0 => none
  | attempt, remaining + 1 =>
    if !looksBlockedOrJsRequired (pages attempt).1
          (extractFromHtml resolve (pages attempt).1 (pages attempt).2 url)
        && !looksEmptyExtraction (extractFromHtml resolve (pages attempt).1 (pages attempt).2 url) then
      some (extractFromHtml resolve (pages attempt).1 (pages attempt).2 url)
    else browserGo resolve pages url (attempt + 1) remaining

/-- Source `scrapeWithBrowser`: executable resolution, then navigation
(driver-level failures abstracted as `nav = some msg`), then the bounded
retry loop; exhaustion raises `BLOCKED_OR_EMPTY`, success strips the
internal body-text length. -/
def scrapeWithBrowser (resolve : Str → Str → Option Str) (benv : BrowserEnv)
    (nav : Option Str) (pages : Nat → Str × List Node) (url : Str) : FetchResult :=
  match resolveExecPath benv with
  | none =>
    .err (if benv.serverless then S "BROWSER_EXECUTABLE_NOT_FOUND"
          else S "LOCAL_BROWSER_EXECUTABLE_NOT_CONFIGURED")
  | some p =>
    if p.length = 0 then
      .err (if benv.serverless then S "BROWSER_EXECUTABLE_NOT_FOUND"
            else S "LOCAL_BROWSER_EXECUTABLE_NOT_CONFIGURED")
    else
      match nav with
      | some m => .err m
      | none =>
        match browserGo resolve pages url 0 6 with
        | some extracted => .ok (stripDoc extracted)
        | none => .err (S "BLOCKED_OR_EMPTY")

/-! ## Prompt digest -/

/-- Source `formatTablesForPrompt`: at most 6 tables, 6 rows each, with
caption/headers lines and overflow markers. -/
def formatTablesForPrompt (tables : List TableRec) : Str :=
  if tables.length = 0 then []
  else
    let lines := (tables.take 6).enum.foldl
      (fun acc (p : Nat × TableRec) =>
        let i := p.1
        let t := p.2
        let caption := normalizeText t.caption
        let headers := (t.headers.map normalizeText).filter (fun h => 0 < h.length)
        let rows := t.rows
        let headLine := S "Table " ++ natToStr (i + 1)
          ++ (if 0 < caption.length then S " (caption: " ++ caption ++ [')'] else [])
          ++ [':']
        let headerLines :=
          if 0 < headers.length then [S "- headers: " ++ List.intercalate (S " | ") headers]
          else []
        let shownRows := min 6 rows.length
        let rowLines := (rows.take 6).enum.foldl
          (fun racc (q : Nat × List Str) =>
            let row := (q.2.map normalizeText).filter (fun c => 0 < c.length)
            if 0 < row.length then
              racc ++ [S "- row " ++ natToStr (q.1 + 1) ++ (S ": " ++ List.intercalate (S " | ") row)]
            else racc)
          []
        let overflow :=
          if shownRows < rows.length then
            [S "- … (" ++ natToStr (rows.length - shownRows) ++ S " more rows)"]
          else []
        acc ++ [headLine] ++ headerLines ++ rowLines ++ overflow)
      []
    let lines := lines ++
      (if 6 < tables.length then [S "… (" ++ natToStr (tables.length - 6) ++ S " more tables)"]
       else [])
    List.intercalate (S "\n") lines

/-- Source `formatListsForPrompt`: at most 10 lists, 10 items each, with
type lines and overflow markers. -/
def formatListsForPrompt (lists : List ListRec) : Str :=
  if lists.length = 0 then []
  else
    let lines := (lists.take 10).enum.foldl
      (fun acc (p : Nat × ListRec) =>
        let i := p.1
        let l := p.2
        let ty := if l.type = S "ol" then S "ordered" else S "unordered"
        let items := (l.items.map normalizeText).filter (fun t => 0 < t.length)
        let headLine := S "List " ++ natToStr (i + 1) ++ (S " (" ++ ty ++ S "):")
        let shownItems := min 10 items.length
        let itemLines := (items.take 10).map (fun t => S "- " ++ t)
        let overflow :=
          if shownItems < items.length then
            [S "- … (" ++ natToStr (items.length - shownItems) ++ S " more items)"]
          else []
        acc ++ [headLine] ++ itemLines ++ overflow)
      []
    let lines := lines ++
      (if 10 < lists.length then [S "… (" ++ natToStr (lists.length - 10) ++ S " more lists)"]
       else [])
    List.intercalate (S "\n") lines

/-- The plain-text digest handed to the summarization collaborator:
title/URL/description/paragraphs/tables/lists, trimmed and truncated to
4500 characters. -/
def buildFullText (scraped : PublicDocument) (normalizedUrl : Str) : Str :=
  let contentText := List.intercalate (S "\n") scraped.paragraphs
  let tablesText := formatTablesForPrompt scraped.tables
  let listsText := formatListsForPrompt scraped.lists
  (trim
    (S "\nTitle: " ++ scraped.title
      ++ (S "\nURL: " ++ normalizedUrl)
      ++ (S "\nDescription: " ++ scraped.description)
      ++ (S "\n\nText (paragraphs):\n" ++ contentText)
      ++ (S "\n\nTables:\n" ++ (if 0 < tablesText.length then tablesText else S "None"))
      ++ (S "\n\nLists:\n" ++ (if 0 < listsText.length then listsText else S "None"))
      ++ [ '\n' ])).take 4500

/-! ## Orchestrator -/

/-- The actor input record `{url, prompt}`; absent or empty fields are falsy. -/
structure ScrapeInput where
  url : Option Str
  prompt : Option Str

/-- The summarization collaborator's outcome: a summary body, or a failure
with an optional HTTP response status. -/
inductive SummOutcome where
  | ok (s : Str)
  | err (status : Option Nat)

/-- The public payload attached to orchestrator failures. -/
structure PublicPayload where
  error : Str
  errorType : Option Str := none
  message : Option Str := none
  url : Option Str := none
  details : Option (Option Str × Option Str) := none
deriving DecidableEq

/-- The orchestrator's success record (the `scrapedAt` wall-clock timestamp
is outside the model). -/
structure ScrapeSuccess where
  url : Str
  methodUsed : Str
  summary : Str
  doc : PublicDocument
deriving DecidableEq

/-- Final outcome of one `scrapeAndSummarize` invocation. -/
inductive Outcome where
  | success (r : ScrapeSuccess)
  | failure (statusCode : Nat) (payload : PublicPayload)
deriving DecidableEq

/-- Outcome plus which stages were attempted. -/
structure RunTrace where
  outcome : Outcome
  httpAttempted : Bool
  browserAttempted : Bool
  summarizeAttempted : Bool
deriving DecidableEq

/-- Fixed fallback summary when the collaborator answers HTTP 429. -/
def rateLimitFallback : Str :=
  S "AI service is currently busy (rate limit). You can still view the scraped content and use chat later."

/-- Fixed fallback summary for any other collaborator failure. -/
def genericFallback : Str :=
  S "AI summary unavailable. You can still view the scraped content below."

/-- Does the retained (optional) HTTP error message contain `TIMEOUT`
(`details.httpError?.includes('TIMEOUT')`)? -/
def httpErrorHasTimeout : Option Str → Bool
  | some m => containsSub m (S "TIMEOUT")
  | none => false

/-- The final error-type classification of the orchestrator's failure path,
from the retained HTTP error message and the browser error message. -/
def errorTypeFor (httpError : Option Str) (browserMsg : Str) : Str :=
  if httpErrorHasTimeout httpError || containsSub browserMsg (S "TIMEOUT") then S "TIMEOUT"
  else if browserMsg = S "LOGIN_OR_BLOCKED" then S "LOGIN_REQUIRED"
  else if browserMsg = S "BLOCKED_OR_EMPTY" then S "BLOCKED"
  else S "SCRAPE_ERROR"

/-- The user-facing message of the orchestrator's failure path. -/
def failureMessageFor (httpError : Option Str) (browserMsg : Str) : Str :=
  if httpErrorHasTimeout httpError || containsSub browserMsg (S "TIMEOUT") then
    S "⚠️ Scraping timed out on the server. This often happens on serverless hosts for heavy pages."
  else if browserMsg = S "LOGIN_OR_BLOCKED" then
    S "⚠️ This page likely requires login or restricts automated access (common on social platforms like Instagram). For reliable results, use the platform’s official API or scrape only content you’re authorized to access."
  else if browserMsg = S "BLOCKED_OR_EMPTY" then
    S "⚠️ This site appears to block scraping from server IPs (bot protection/captcha)."
  else
    S "⚠️ Unable to scrape this site. It may be blocking automation or requires interaction/login."

/-- The 422 public payload built when both strategies failed. -/
def scrapeFailurePayload (httpError : Option Str) (browserMsg : Str)
    (normalizedUrl : Str) : PublicPayload :=
  { error := S "Scraping failed"
    errorType := some (errorTypeFor httpError browserMsg)
    message := some (failureMessageFor httpError browserMsg)
    url := some normalizedUrl
    details := some (httpError, some browserMsg) }

/-- JS truthiness of the optional prompt: present and non-empty. -/
def promptTruthy : Option Str → Bool
  | none => false
  | some p => 0 < p.length

/-- Source `scrapeAndSummarize`: validation, HTTP attempt under its
timeout, browser fallback under its timeout, failure classification, and
best-effort summarization.  `httpTimedOut` / `browserTimedOut` model the
`withTimeout` races; `summ` models the Pollinations POST on the assembled
content string. -/
def scrapeAndSummarize (parse : Str → Option UrlParts) (resolve : Str → Str → Option Str)
    (input : ScrapeInput) (httpTimedOut : Bool) (ax : AxiosOutcome)
    (browserTimedOut : Bool) (benv : BrowserEnv) (nav : Option Str)
    (pages : Nat → Str × List Node) (summ : Str → SummOutcome) : RunTrace :=
  match input.url with
  | none => ⟨.failure 400 { error := S "URL is required" }, false, false, false⟩
  | some rawUrl =>
    if rawUrl.length = 0 then
      ⟨.failure 400 { error := S "URL is required" }, false, false, false⟩
    else
      match validateScrapeUrl parse rawUrl with
      | .error code =>
        ⟨.failure 400
          { error := S "Invalid URL"
            errorType := some code
            message := some
              (if code = S "INVALID_URL_PROTOCOL" then S "Only http(s) URLs are allowed."
               else S "Invalid URL format")
            url := some rawUrl },
          false, false, false⟩
      | .ok normalizedUrl =>
        let httpRes : FetchResult :=
          if httpTimedOut then .err (S "HTTP_TIMEOUT")
          else scrapeWithHttp resolve ax normalizedUrl
        match httpRes with
        | .ok doc =>
          finishRun normalizedUrl (S "HTTP") doc input.prompt summ false
        | .err httpMsg =>
          let browserRes : FetchResult :=
            if browserTimedOut then .err (S "BROWSER_TIMEOUT")
            else scrapeWithBrowser resolve benv nav pages normalizedUrl
          match browserRes with
          | .ok doc =>
            finishRun normalizedUrl (S "BROWSER") doc input.prompt summ true
          | .err browserMsg =>
            ⟨.failure 422 (scrapeFailurePayload (some httpMsg) browserMsg normalizedUrl),
              true, true, false⟩
where
  /-- Result assembly and best-effort summarization once scraping succeeded. -/
  finishRun (normalizedUrl methodUsed : Str) (doc : PublicDocument)
      (prompt : Option Str) (summ : Str → SummOutcome) (usedBrowser : Bool) : RunTrace :=
    if promptTruthy prompt then
      let fullText := buildFullText doc normalizedUrl
      let summary :=
        match summ (prompt.getD [] ++ (S ":\n\n" ++ fullText)) with
        | .ok s => s
        | .err st => if st = some 429 then rateLimitFallback else genericFallback
      ⟨.success { url := normalizedUrl, methodUsed := methodUsed, summary := summary, doc := doc },
        true, usedBrowser, true⟩
    else
      ⟨.success { url := normalizedUrl, methodUsed := methodUsed, summary := [], doc := doc },
        true, usedBrowser, false⟩

/-! ## Concrete fixtures used by witnesses and counterexamples -/

/-- A resolver that always fails (relative URLs never resolve). -/
def res0 : Str → Str → Option Str := fun _ _ => none

/-- A parser that accepts everything as `http://x/`. -/
def parse1 : Str → Option UrlParts := fun _ => some ⟨S "http:", S "http://x/"⟩

/-- A parser that parses everything with an `ftp:` scheme. -/
def parse2 : Str → Option UrlParts := fun _ => some ⟨S "ftp:", S "ftp://e/"⟩

/-- A serverless browser environment with a bundled chromium path. -/
def benv0 : BrowserEnv := ⟨true, S "/usr/bin/chromium", none, S "linux"⟩

/-- A rendered-page oracle that always returns an empty page. -/
def pages0 : Nat → Str × List Node := fun _ => (([] : Str), ([] : List Node))

/-- A summarizer that always fails without a status. -/
def summ0 : Str → SummOutcome := fun _ => .err none

/-- A summarizer that always fails with HTTP 429. -/
def summ429 : Str → SummOutcome := fun _ => .err (some 429)

/-- Blockquote with 300 `a`s followed by `b` (duplicates after truncation). -/
def dupBq1 : Node := .elem (S "blockquote") [] [.text (List.replicate 300 'a' ++ ['b'])]

/-- Blockquote with 300 `a`s followed by `c` (duplicates after truncation). -/
def dupBq2 : Node := .elem (S "blockquote") [] [.text (List.replicate 300 'a' ++ ['c'])]

/-- Paragraph text that is trimmed but not whitespace-normalized: 33 raw
characters, collapsing to 3 after normalization. -/
def rawPara : Str := ['a'] ++ List.replicate 31 '\n' ++ ['b']

/-- A `p` element with the non-normalized long text. -/
def pLong : Node := .elem (S "p") [] [.text rawPara]

/-- A sample page body: long plain text, one table, one list, one long
paragraph, one heading. -/
def sampleBody : Node :=
  .elem (S "body") []
    [.text (List.replicate 200 'x'),
     .elem (S "table") [] [.elem (S "tr") [] [.elem (S "td") [] [.text (S "cell")]]],
     .elem (S "ul") [] [.elem (S "li") [] [.text (S "item")]],
     .elem (S "p") [] [.text (List.replicate 40 'y')],
     .elem (S "h2") [] [.text (S "Heading")]]

/-- The sample document. -/
def sampleDom : List Node := [sampleBody]

/-! ## Helper lemmas: capped folds -/

theorem cappedFold_aux_length (cap : Nat) (step : α → Option β) :
    ∀ (xs : List α) (acc : List β), acc.length ≤ cap →
      (List.foldl (cappedStep cap step) acc xs).length ≤ cap := by
  intro xs
  induction xs with
  | nil => intro acc h; simpa using h
  | cons x xs ih =>
    intro acc h
    simp only [List.foldl_cons]
    apply ih
    unfold cappedStep
    split
    · exact h
    · rename_i hlt
      push_neg at hlt
      split
      · exact h
      · simp only [List.length_append, List.length_singleton]
        omega

theorem cappedFold_length_le (cap : Nat) (step : α → Option β) (xs : List α) :
    (cappedFold cap step xs).length ≤ cap := by
  unfold cappedFold
  exact cappedFold_aux_length cap step xs [] (by simp)

theorem cappedFold_aux_mem (cap : Nat) (step : α → Option β) (b : β) :
    ∀ (xs : List α) (acc : List β), b ∈ List.foldl (cappedStep cap step) acc xs →
      b ∈ acc ∨ ∃ x ∈ xs, step x = some b := by
  intro xs
  induction xs with
  | nil => intro acc h; exact Or.inl (by simpa using h)
  | cons x xs ih =>
    intro acc h
    simp only [List.foldl_cons] at h
    rcases ih _ h with h' | ⟨y, hy, hstep⟩
    · unfold cappedStep at h'
      split at h'
      · exact Or.inl h'
      · split at h'
        · exact Or.inl h'
        · rename_i b' heq
          rcases List.mem_append.mp h' with h'' | h''
          · exact Or.inl h''
          · right
            refine ⟨x, List.mem_cons_self x xs, ?_⟩
            rw [heq]
            have hb : b = b' := by simpa using h''
            rw [hb]
    · exact Or.inr ⟨y, List.mem_cons_of_mem x hy, hstep⟩

theorem cappedFold_mem (cap : Nat) (step : α → Option β) (xs : List α) (b : β)
    (h : b ∈ cappedFold cap step xs) : ∃ x ∈ xs, step x = some b := by
  unfold cappedFold at h
  rcases cappedFold_aux_mem cap step b xs [] h with h' | h'
  · simp at h'
  · exact h'

/-! ## Helper lemmas: table and list bounds -/

theorem firstRowHeaderCells_length_le (tbl : Node) :
    (firstRowHeaderCells tbl).length ≤ 20 := by
  unfold firstRowHeaderCells
  split
  · split
    · simp only [List.length_take]; omega
    · simp
  · simp

theorem tableHeaders_length_le (tbl : Node) : (tableHeaders tbl).length ≤ 20 := by
  unfold tableHeaders
  split
  · simp only [List.length_take]; omega
  · exact firstRowHeaderCells_length_le tbl

theorem tableRowCells_length_le (tr : Node) : (tableRowCells tr).length ≤ 20 := by
  unfold tableRowCells
  refine le_trans (List.length_filter_le _ _) ?_
  simp only [List.length_take]
  omega

theorem tableRows_length_le (tbl : Node) : (tableRows tbl).length ≤ 50 :=
  cappedFold_length_le 50 _ _

theorem mem_tableRows_length_le (tbl : Node) (r : List Str) (h : r ∈ tableRows tbl) :
    r.length ≤ 20 := by
  rcases cappedFold_mem _ _ _ _ h with ⟨p, _, hstep⟩
  unfold tableRowStep at hstep
  split at hstep
  · exact absurd hstep (by simp)
  · split at hstep
    · exact absurd hstep (by simp)
    · have hr' : tableRowCells p.2 = r := Option.some.inj hstep
      rw [← hr']
      exact tableRowCells_length_le p.2

theorem mkTable_bounds (tbl : Node) (t : TableRec) (h : mkTable tbl = some t) :
    t.headers.length ≤ 20 ∧ t.rows.length ≤ 50 ∧ (∀ r ∈ t.rows, r.length ≤ 20) ∧
      t.html = serializeNode tbl := by
  unfold mkTable at h
  split at h
  · exact absurd h (by simp)
  · rw [← Option.some.inj h]
    exact ⟨tableHeaders_length_le tbl, tableRows_length_le tbl,
      fun r hr => mem_tableRows_length_le tbl r hr, rfl⟩

theorem listItems_length_le (lst : Node) : (listItems lst).length ≤ 60 := by
  unfold listItems
  simp only [List.length_take]
  omega

theorem mkList_bounds (lst : Node) (l : ListRec) (h : mkList lst = some l) :
    l.items.length ≤ 60 ∧ l.html = serializeNode lst := by
  unfold mkList at h
  split at h
  · exact absurd h (by simp)
  · rw [← Option.some.inj h]
    exact ⟨listItems_length_le lst, rfl⟩

theorem extractTables_length_le (dom : List Node) : (extractTables dom).length ≤ 10 :=
  cappedFold_length_le 10 mkTable _

theorem extractLists_length_le (dom : List Node) : (extractLists dom).length ≤ 30 :=
  cappedFold_length_le 30 mkList _

theorem mem_extractTables (dom : List Node) (t : TableRec) (h : t ∈ extractTables dom) :
    ∃ n ∈ subtreeElemsList [S "table"] dom, mkTable n = some t :=
  cappedFold_mem 10 mkTable _ t h

theorem mem_extractLists (dom : List Node) (l : ListRec) (h : l ∈ extractLists dom) :
    ∃ n ∈ subtreeElemsList [S "ul", S "ol"] dom, mkList n = some l :=
  cappedFold_mem 30 mkList _ l h

/-! ## Helper lemmas: the component loop -/

theorem componentsGo_length_le :
    ∀ (cands : List Node) (seen : List Str) (out : List Component),
      out.length ≤ 80 → (componentsGo cands seen out).length ≤ 80 := by
  intro cands
  induction cands with
  | nil => intro seen out h; simpa [componentsGo] using h
  | cons el rest ih =>
    intro seen out h
    unfold componentsGo
    split
    · exact ih _ _ h
    · rename_i hlt
      push_neg at hlt
      split
      · exact ih _ _ h
      · split
        · exact ih _ _ h
        · apply ih
          simp only [List.length_append, List.length_singleton]
          omega

theorem componentsGo_content_le :
    ∀ (cands : List Node) (seen : List Str) (out : List Component),
      (∀ e ∈ out, e.content.length ≤ 300) →
      ∀ e ∈ componentsGo cands seen out, e.content.length ≤ 300 := by
  intro cands
  induction cands with
  | nil => intro seen out h; simpa [componentsGo] using h
  | cons el rest ih =>
    intro seen out h
    unfold componentsGo
    split
    · exact ih _ _ h
    · split
      · exact ih _ _ h
      · rename_i name content heq
        split
        · exact ih _ _ h
        · apply ih
          intro e he
          rcases List.mem_append.mp he with he' | he'
          · exact h e he'
          · have hee : e = ⟨name, content.take 300⟩ := by simpa using he'
            rw [hee]
            exact List.length_take_le 300 _

/-- The duplicate-only-at-truncation relation on emitted components. -/
def TruncDup (a b : Component) : Prop :=
  a.name = b.name → a.content = b.content → a.content.length = 300

theorem componentsGo_pairwise :
    ∀ (cands : List Node) (seen : List Str) (out : List Component),
      (∀ e ∈ out, e.content.length < 300 → (e.name ++ (S "::" ++ e.content)) ∈ seen) →
      (∀ e ∈ out, e.content.length ≤ 300) →
      List.Pairwise TruncDup out →
      List.Pairwise TruncDup (componentsGo cands seen out) := by
  intro cands
  induction cands with
  | nil => intro seen out _ _ hp; simpa [componentsGo] using hp
  | cons el rest ih =>
    intro seen out hinv hle hp
    unfold componentsGo
    split
    · exact ih _ _ hinv hle hp
    · split
      · exact ih _ _ hinv hle hp
      · rename_i name content heq
        split
        · exact ih _ _ hinv hle hp
        · rename_i hkey
          apply ih
          · intro e he hlt
            rcases List.mem_append.mp he with he' | he'
            · exact List.mem_cons_of_mem _ (hinv e he' hlt)
            · have hee : e = ⟨name, content.take 300⟩ := by simpa using he'
              subst hee
              have hcl : content.length < 300 := by
                by_contra hge
                push_neg at hge
                simp only [List.length_take] at hlt
                omega
              have hct : content.take 300 = content := List.take_of_length_le (by omega)
              simp only [hct]
              exact List.mem_cons_self _ _
          · intro e he
            rcases List.mem_append.mp he with he' | he'
            · exact hle e he'
            · have hee : e = ⟨name, content.take 300⟩ := by simpa using he'
              rw [hee]
              exact List.length_take_le 300 _
          · rw [List.pairwise_append]
            refine ⟨hp, List.pairwise_singleton _ _, ?_⟩
            intro a ha b hb
            have hbb : b = ⟨name, content.take 300⟩ := by simpa using hb
            subst hbb
            intro hn hc
            by_contra hne
            have ha300 : a.content.length < 300 := lt_of_le_of_ne (hle a ha) hne
            have hkeya : (a.name ++ (S "::" ++ a.content)) ∈ seen := hinv a ha ha300
            have hcl : content.length < 300 := by
              rw [hc] at ha300
              simp only [List.length_take] at ha300
              omega
            have hct : content.take 300 = content := List.take_of_length_le (by omega)
            rw [hn, hc, hct] at hkeya
            exact hkey hkeya

theorem extractUniqueComponents_length_le (dom : List Node) :
    (extractUniqueComponents dom).length ≤ 80 :=
  componentsGo_length_le _ [] [] (by simp)

theorem extractUniqueComponents_content_le (dom : List Node) :
    ∀ e ∈ extractUniqueComponents dom, e.content.length ≤ 300 :=
  componentsGo_content_le _ [] [] (by simp)

theorem extractUniqueComponents_pairwise (dom : List Node) :
    List.Pairwise TruncDup (extractUniqueComponents dom) :=
  componentsGo_pairwise _ [] [] (by simp) (by simp) List.Pairwise.nil

/-! ## Helper lemmas: trimming -/

theorem dropWhile_dropWhile (p : Char → Bool) (l : Str) :
    (l.dropWhile p).dropWhile p = l.dropWhile p := by
  induction l with
  | nil => rfl
  | cons a l ih =>
    by_cases h : p a
    · simp [List.dropWhile_cons, h, ih]
    · simp [List.dropWhile_cons, h]

theorem dropWhile_length_le (p : Char → Bool) (l : Str) :
    (l.dropWhile p).length ≤ l.length := by
  induction l with
  | nil => simp
  | cons a l ih =>
    by_cases h : p a
    · simp only [List.dropWhile_cons, h, if_true, List.length_cons]
      omega
    · simp [List.dropWhile_cons, h]

theorem dropWhile_append_singleton (p : Char → Bool) (a : Char) (l : Str)
    (ha : p a = false) : ∃ w, (l ++ [a]).dropWhile p = w ++ [a] := by
  induction l with
  | nil => exact ⟨[], by simp [List.dropWhile_cons, ha]⟩
  | cons c l ih =>
    by_cases h : p c
    · simpa [List.dropWhile_cons, h] using ih
    · exact ⟨c :: l, by simp [List.dropWhile_cons, h]⟩

theorem trimLeft_of_trimRight (u : Str) (h : trimLeft u = u) :
    trimLeft (trimRight u) = trimRight u := by
  cases u with
  | nil => simp [trimLeft, trimRight]
  | cons a v =>
    have ha : isWsB a = false := by
      by_contra h'
      simp only [Bool.not_eq_false] at h'
      have hlen := congrArg List.length h
      simp only [trimLeft, List.dropWhile_cons, h', if_true, List.length_cons] at hlen
      have hle := dropWhile_length_le isWsB v
      omega
    obtain ⟨w, hw⟩ := dropWhile_append_singleton isWsB a v.reverse ha
    have hrw : trimRight (a :: v) = a :: w.reverse := by
      unfold trimRight
      rw [List.reverse_cons, hw, List.reverse_append]
      simp
    rw [hrw]
    simp [trimLeft, List.dropWhile_cons, ha]

theorem trimRight_trimRight (u : Str) : trimRight (trimRight u) = trimRight u := by
  unfold trimRight
  rw [List.reverse_reverse, dropWhile_dropWhile]

theorem trim_trim (s : Str) : trim (trim s) = trim s := by
  unfold trim
  have h1 : trimLeft (trimLeft s) = trimLeft s := dropWhile_dropWhile isWsB s
  rw [trimLeft_of_trimRight (trimLeft s) h1, trimRight_trimRight]

theorem mem_extractParagraphs (dom : List Node) (s : Str) (h : s ∈ extractParagraphs dom) :
    trim s = s ∧ 30 < s.length := by
  unfold extractParagraphs at h
  have h1 := List.mem_filter.mp h
  obtain ⟨hm, hlen⟩ := h1
  rcases List.mem_map.mp hm with ⟨el, _, hel⟩
  constructor
  · rw [← hel]
    exact trim_trim (textOf el)
  · simpa using hlen

/-! ## Output size measure

The total size of an `ExtractedDocument`, every field included, used to
formalize the worst-case output-size claim. -/

/-- Sum of the lengths of a list of strings. -/
def sumLens (l : List Str) : Nat := l.foldl (fun acc s => acc + s.length) 0

/-- Size of a table record. -/
def tableRecSize (t : TableRec) : Nat :=
  t.caption.length + sumLens t.headers + t.rows.foldl (fun acc r => acc + sumLens r) 0
    + t.rowCount + t.colCount + t.html.length

/-- Size of a list record. -/
def listRecSize (l : ListRec) : Nat :=
  l.type.length + sumLens l.items + l.itemCount + l.html.length

/-- Total size of an extraction result, every field included. -/
def docSize (d : ExtractedDocument) : Nat :=
  d.rawHtml.length + d.title.length + d.description.length + sumLens d.paragraphs
    + sumLens d.images
    + d.links.foldl (fun acc l => acc + l.url.length + l.text.length) 0
    + d.tables.foldl (fun acc t => acc + tableRecSize t) 0
    + d.lists.foldl (fun acc l => acc + listRecSize l) 0
    + d.uniqueComponents.foldl (fun acc c => acc + c.name.length + c.content.length) 0
    + d.techStack.foldl (fun acc t => acc + t.name.length + t.icon.length) 0
    + d.bodyTextLength

/-! ## Claims -/

/-- C1 counterexample: no constant bounds the total size of the extraction
result — the `rawHtml` field alone echoes the entire input HTML, so for any
candidate bound `B` an input of length `B + 1` exceeds it. -/
theorem claim1_counterexample :
    ¬ ∃ B : Nat, ∀ (resolve : Str → Str → Option Str) (html : Str) (dom : List Node)
        (url : Str), docSize (extractFromHtml resolve html dom url) ≤ B := by
  rintro ⟨B, hB⟩
  have h := hB res0 (List.replicate (B + 1) 'a') [] []
  have h2 : (extractFromHtml res0 (List.replicate (B + 1) 'a') [] []).rawHtml.length ≤
      docSize (extractFromHtml res0 (List.replicate (B + 1) 'a') [] []) := by
    unfold docSize
    omega
  have h1 : (extractFromHtml res0 (List.replicate (B + 1) 'a') [] []).rawHtml =
      List.replicate (B + 1) 'a' := rfl
  rw [h1] at h2
  simp only [List.length_replicate] at h2
  omega

/-- C1 (amended): table, list and component extraction cap their counts
(10 / 30 / 80) and component content is truncated to 300 characters, but
there is no fixed bound on the total size of the `ExtractedDocument`:
`rawHtml` holds the entire input, so the total size grows without bound. -/
theorem claim1_amended_caps_but_unbounded :
    (∀ (resolve : Str → Str → Option Str) (html : Str) (dom : List Node) (url : Str),
      (extractFromHtml resolve html dom url).tables.length ≤ 10 ∧
      (extractFromHtml resolve html dom url).lists.length ≤ 30 ∧
      (extractFromHtml resolve html dom url).uniqueComponents.length ≤ 80 ∧
      ∀ c ∈ (extractFromHtml resolve html dom url).uniqueComponents, c.content.length ≤ 300) ∧
    (∀ (resolve : Str → Str → Option Str) (dom : List Node) (url : Str) (B : Nat),
      ∃ html : Str, B < docSize (extractFromHtml resolve html dom url)) := by
  constructor
  · intro resolve html dom url
    exact ⟨extractTables_length_le dom, extractLists_length_le dom,
      extractUniqueComponents_length_le dom, extractUniqueComponents_content_le dom⟩
  · intro resolve dom url B
    refine ⟨List.replicate (B + 1) 'a', ?_⟩
    have h2 : (extractFromHtml resolve (List.replicate (B + 1) 'a') dom url).rawHtml.length ≤
        docSize (extractFromHtml resolve (List.replicate (B + 1) 'a') dom url) := by
      unfold docSize
      omega
    have h1 : (extractFromHtml resolve (List.replicate (B + 1) 'a') dom url).rawHtml =
        List.replicate (B + 1) 'a' := rfl
    rw [h1] at h2
    simp only [List.length_replicate] at h2
    omega

/-- Witness for C1 (amended) at concrete inputs. -/
theorem claim1_amended_caps_but_unbounded_witness :
    (⟨S "h2", S "Heading"⟩ : Component).content.length ≤ 300 ∧
    ∃ html : Str, 5 < docSize (extractFromHtml res0 html [] []) :=
  ⟨(claim1_amended_caps_but_unbounded.1 res0 (S "<html>") sampleDom (S "http://x/")).2.2.2
      ⟨S "h2", S "Heading"⟩ (by decide),
   claim1_amended_caps_but_unbounded.2 res0 [] [] 5⟩

/-- C2 counterexample: two blockquotes whose contents differ only past the
300-character truncation point both survive deduplication (their keys use
the untruncated contents) and are stored with identical name and content. -/
theorem claim2_counterexample :
    ¬ List.Pairwise (fun a b => ¬(a.name = b.name ∧ a.content = b.content))
        ((extractFromHtml res0 [] [dupBq1, dupBq2] []).uniqueComponents) := by
  decide

/-- C2 (amended): deduplication uses the (name, pre-truncation content)
composite key, so two stored entries can have identical name and content
only when that shared content is exactly the 300-character truncation;
entries with shorter content are pairwise distinct as (name, content). -/
theorem claim2_amended_dedup_key (resolve : Str → Str → Option Str) (html : Str)
    (dom : List Node) (url : Str) :
    List.Pairwise TruncDup ((extractFromHtml resolve html dom url).uniqueComponents) :=
  extractUniqueComponents_pairwise dom

/-- C3 counterexample: a paragraph whose trimmed text is 33 characters with
an inner run of 31 newlines is kept verbatim — it is not
whitespace-normalized, and its normalized form has length 3 < 30. -/
theorem claim3_counterexample :
    ¬ ∀ s ∈ (extractFromHtml res0 [] [pLong] []).paragraphs,
        normalizeText s = s ∧ 30 ≤ (normalizeText s).length := by
  decide

/-- C3 (amended): every extracted paragraph string is trimmed (no leading or
trailing whitespace) and its raw length exceeds 30 characters; inner
whitespace runs are not collapsed. -/
theorem claim3_amended_paragraphs (resolve : Str → Str → Option Str) (html : Str)
    (dom : List Node) (url : Str) :
    ∀ s ∈ (extractFromHtml resolve html dom url).paragraphs, trim s = s ∧ 30 < s.length :=
  fun s hs => mem_extractParagraphs dom s hs

/-- Witness for C3 (amended) at the concrete non-normalized paragraph. -/
theorem claim3_amended_paragraphs_witness :
    trim rawPara = rawPara ∧ 30 < rawPara.length :=
  claim3_amended_paragraphs res0 [] [pLong] [] rawPara (by decide)

/-- C4: for every HTML input and base URL the extraction result satisfies
all structural caps — at most 10 tables, 30 lists, 80 unique components, at
most 50 rows and 20 header/row cells per table, at most 60 items per list —
regardless of how many such elements the document contains. -/
theorem claim4_structural_caps (resolve : Str → Str → Option Str) (html : Str)
    (dom : List Node) (url : Str) :
    (extractFromHtml resolve html dom url).tables.length ≤ 10 ∧
    (extractFromHtml resolve html dom url).lists.length ≤ 30 ∧
    (extractFromHtml resolve html dom url).uniqueComponents.length ≤ 80 ∧
    (∀ t ∈ (extractFromHtml resolve html dom url).tables,
      t.rows.length ≤ 50 ∧ t.headers.length ≤ 20 ∧ ∀ r ∈ t.rows, r.length ≤ 20) ∧
    (∀ l ∈ (extractFromHtml resolve html dom url).lists, l.items.length ≤ 60) := by
  refine ⟨extractTables_length_le dom, extractLists_length_le dom,
    extractUniqueComponents_length_le dom, ?_, ?_⟩
  · intro t ht
    rcases mem_extractTables dom t ht with ⟨n, _, hmk⟩
    obtain ⟨h1, h2, h3, _⟩ := mkTable_bounds n t hmk
    exact ⟨h2, h1, h3⟩
  · intro l hl
    rcases mem_extractLists dom l hl with ⟨n, _, hmk⟩
    exact (mkList_bounds n l hmk).1

/-- The table extracted from the sample document. -/
def sampleTable : TableRec :=
  { caption := []
    headers := []
    rows := [[S "cell"]]
    rowCount := 1
    colCount := 1
    html := S "<table><tr><td>cell</td></tr></table>" }

/-- The list extracted from the sample document. -/
def sampleList : ListRec :=
  { type := S "ul"
    items := [S "item"]
    itemCount := 1
    html := S "<ul><li>item</li></ul>" }

/-- Witness for C4 at the sample document. -/
theorem claim4_structural_caps_witness :
    (extractFromHtml res0 (S "<html>") sampleDom (S "http://x/")).tables.length ≤ 10 ∧
    (sampleTable.rows.length ≤ 50 ∧ sampleTable.headers.length ≤ 20 ∧
      ∀ r ∈ sampleTable.rows, r.length ≤ 20) ∧
    sampleList.items.length ≤ 60 :=
  ⟨(claim4_structural_caps res0 (S "<html>") sampleDom (S "http://x/")).1,
   (claim4_structural_caps res0 (S "<html>") sampleDom (S "http://x/")).2.2.2.1
     sampleTable (by decide),
   (claim4_structural_caps res0 (S "<html>") sampleDom (S "http://x/")).2.2.2.2
     sampleList (by decide)⟩

/-- Restatement of C5's claimed general rule, following the claim's words:
TIMEOUT when either retained message contains TIMEOUT, else BLOCKED when the
browser message is BLOCKED_OR_EMPTY, else SCRAPE_ERROR. -/
def claimedErrorTypeRule (httpError : Option Str) (browserMsg : Str) : Str :=
  if httpErrorHasTimeout httpError || containsSub browserMsg (S "TIMEOUT") then S "TIMEOUT"
  else if browserMsg = S "BLOCKED_OR_EMPTY" then S "BLOCKED"
  else S "SCRAPE_ERROR"

/-- The amended rule: as claimed, but with the LOGIN_OR_BLOCKED browser
message mapped to LOGIN_REQUIRED before the BLOCKED_OR_EMPTY check. -/
def amendedErrorTypeRule (httpError : Option Str) (browserMsg : Str) : Str :=
  if httpErrorHasTimeout httpError || containsSub browserMsg (S "TIMEOUT") then S "TIMEOUT"
  else if browserMsg = S "LOGIN_OR_BLOCKED" then S "LOGIN_REQUIRED"
  else if browserMsg = S "BLOCKED_OR_EMPTY" then S "BLOCKED"
  else S "SCRAPE_ERROR"

/-- C5 counterexample: at browser message LOGIN_OR_BLOCKED the code yields
LOGIN_REQUIRED while the claimed three-way rule yields SCRAPE_ERROR, so the
claimed rule does not describe the code's classification. -/
theorem claim5_counterexample :
    errorTypeFor (some (S "HTTP_ERROR_403")) (S "LOGIN_OR_BLOCKED") = S "LOGIN_REQUIRED" ∧
    claimedErrorTypeRule (some (S "HTTP_ERROR_403")) (S "LOGIN_OR_BLOCKED") = S "SCRAPE_ERROR" ∧
    errorTypeFor (some (S "HTTP_ERROR_403")) (S "LOGIN_OR_BLOCKED") ≠
      claimedErrorTypeRule (some (S "HTTP_ERROR_403")) (S "LOGIN_OR_BLOCKED") := by
  refine ⟨?_, ?_, ?_⟩ <;> decide

/-- C5 (amended): the HTTP_ERROR_403 + BLOCKED_OR_EMPTY scenario fails with
errorType BLOCKED, status 422 and details.httpError = HTTP_ERROR_403; in
general the final errorType is TIMEOUT when either retained message
contains TIMEOUT, else LOGIN_REQUIRED when the browser message is
LOGIN_OR_BLOCKED, else BLOCKED when it is BLOCKED_OR_EMPTY, else
SCRAPE_ERROR. -/
theorem claim5_amended_error_mapping :
    (∀ (httpError : Option Str) (browserMsg : Str),
      errorTypeFor httpError browserMsg = amendedErrorTypeRule httpError browserMsg) ∧
    scrapeAndSummarize parse1 res0 ⟨some (S "http://x/"), none⟩ false (.response 403 [] [])
        false benv0 none pages0 summ0 =
      ⟨.failure 422
        { error := S "Scraping failed"
          errorType := some (S "BLOCKED")
          message := some
            (S "⚠️ This site appears to block scraping from server IPs (bot protection/captcha).")
          url := some (S "http://x/")
          details := some (some (S "HTTP_ERROR_403"), some (S "BLOCKED_OR_EMPTY")) },
        true, true, false⟩ := by
  constructor
  · intro httpError browserMsg
    rfl
  · decide

/-- C6: URL validation fails with INVALID_URL when the string does not
parse, with INVALID_URL_PROTOCOL when the scheme is neither http nor https,
and otherwise returns the canonical href; both failures are mapped to a
status-400 public payload and no fetch stage is attempted. -/
theorem claim6_url_validation (parse : Str → Option UrlParts) (raw : Str) :
    (parse raw = none → validateScrapeUrl parse raw = .error (S "INVALID_URL")) ∧
    (∀ u, parse raw = some u → u.protocol ≠ S "http:" → u.protocol ≠ S "https:" →
      validateScrapeUrl parse raw = .error (S "INVALID_URL_PROTOCOL")) ∧
    (∀ u, parse raw = some u → (u.protocol = S "http:" ∨ u.protocol = S "https:") →
      validateScrapeUrl parse raw = .ok u.href) ∧
    (∀ code, validateScrapeUrl parse raw = .error code → 0 < raw.length →
      ∀ (resolve : Str → Str → Option Str) (httpTimedOut : Bool) (ax : AxiosOutcome)
        (browserTimedOut : Bool) (benv : BrowserEnv) (nav : Option Str)
        (pages : Nat → Str × List Node) (summ : Str → SummOutcome) (prompt : Option Str),
        scrapeAndSummarize parse resolve ⟨some raw, prompt⟩ httpTimedOut ax browserTimedOut
            benv nav pages summ =
          ⟨.failure 400
            { error := S "Invalid URL"
              errorType := some code
              message := some (if code = S "INVALID_URL_PROTOCOL"
                then S "Only http(s) URLs are allowed." else S "Invalid URL format")
              url := some raw },
            false, false, false⟩) := by
  refine ⟨?_, ?_, ?_, ?_⟩
  · intro h
    unfold validateScrapeUrl
    rw [h]
  · intro u hu h1 h2
    unfold validateScrapeUrl
    rw [hu]
    simp [h1, h2]
  · intro u hu h
    unfold validateScrapeUrl
    rw [hu]
    rcases h with h | h <;> simp [h]
  · intro code hcode hlen resolve httpTimedOut ax browserTimedOut benv nav pages summ prompt
    have hne : ¬(raw.length = 0) := by omega
    simp only [scrapeAndSummarize, hne, if_false, hcode]

/-- Witness for C6 at the `ftp://example.com` scenario. -/
theorem claim6_url_validation_witness :
    validateScrapeUrl parse2 (S "ftp://example.com") = .error (S "INVALID_URL_PROTOCOL") ∧
    (scrapeAndSummarize parse2 res0 ⟨some (S "ftp://example.com"), none⟩ false
        (.failure (S "boom")) false benv0 none pages0 summ0).outcome =
      .failure 400
        { error := S "Invalid URL"
          errorType := some (S "INVALID_URL_PROTOCOL")
          message := some (S "Only http(s) URLs are allowed.")
          url := some (S "ftp://example.com") } := by
  have h := claim6_url_validation parse2 (S "ftp://example.com")
  have hv := h.2.1 ⟨S "ftp:", S "ftp://e/"⟩ rfl (by decide) (by decide)
  refine ⟨hv, ?_⟩
  have h4 := h.2.2.2 (S "INVALID_URL_PROTOCOL") hv (by decide) res0 false (.failure (S "boom"))
    false benv0 none pages0 summ0 none
  rw [h4]
  decide

/-- C7: looksBlockedOrJsRequired returns true exactly when the extracted
body-text length is below 120, or the lowercased raw HTML contains one of
the fixed challenge phrases (enable javascript, please enable cookies, the
Cloudflare attention/challenge markers, access denied); false otherwise. -/
theorem claim7_blocked_classifier (html : Str) (d : ExtractedDocument) :
    looksBlockedOrJsRequired html d = true ↔
      (d.bodyTextLength < 120 ∨
       containsSub (lowerStr html) (S "enable javascript") = true ∨
       containsSub (lowerStr html) (S "please enable cookies") = true ∨
       (containsSub (lowerStr html) (S "attention required") = true ∧
        containsSub (lowerStr html) (S "cloudflare") = true) ∨
       containsSub (lowerStr html) (S "cf-chl") = true ∨
       containsSub (lowerStr html) (S "challenge-platform") = true ∨
       containsSub (lowerStr html) (S "access denied") = true) := by
  simp only [looksBlockedOrJsRequired]
  split_ifs with h1 h2 h3 h4 h5 h6 <;> first
    | (simp_all; tauto)
    | simp_all

/-- C8: once scraping succeeded and a prompt was supplied, a summarization
failure never fails the request — the result is a success carrying
methodUsed and the full scraped document, with the summary equal to the
rate-limit fallback on HTTP 429 and the generic fallback otherwise. -/
theorem claim8_summary_fallback (parse : Str → Option UrlParts)
    (resolve : Str → Str → Option Str) (rawUrl p nUrl : Str) (ax : AxiosOutcome)
    (benv : BrowserEnv) (nav : Option Str) (pages : Nat → Str × List Node)
    (summ : Str → SummOutcome) (st : Option Nat) (doc : PublicDocument)
    (hraw : 0 < rawUrl.length) (hp : 0 < p.length)
    (hv : validateScrapeUrl parse rawUrl = .ok nUrl)
    (hs : summ (p ++ (S ":\n\n" ++ buildFullText doc nUrl)) = .err st) :
    (scrapeWithHttp resolve ax nUrl = .ok doc →
      scrapeAndSummarize parse resolve ⟨some rawUrl, some p⟩ false ax false benv nav pages summ =
        ⟨.success
          { url := nUrl
            methodUsed := S "HTTP"
            summary := if st = some 429 then rateLimitFallback else genericFallback
            doc := doc },
          true, false, true⟩) ∧
    (∀ hmsg, scrapeWithHttp resolve ax nUrl = .err hmsg →
      scrapeWithBrowser resolve benv nav pages nUrl = .ok doc →
      scrapeAndSummarize parse resolve ⟨some rawUrl, some p⟩ false ax false benv nav pages summ =
        ⟨.success
          { url := nUrl
            methodUsed := S "BROWSER"
            summary := if st = some 429 then rateLimitFallback else genericFallback
            doc := doc },
          true, true, true⟩) := by
  have hne : ¬(rawUrl.length = 0) := by omega
  constructor
  · intro hok
    simp [scrapeAndSummarize, hne, hv, hok, scrapeAndSummarize.finishRun, promptTruthy,
      hp, hs]
  · intro hmsg hhttp hbrowser
    simp [scrapeAndSummarize, hne, hv, hhttp, hbrowser, scrapeAndSummarize.finishRun,
      promptTruthy, hp, hs]

/-- Witness for C8: a rate-limited collaborator still yields a success with
the fixed rate-limit fallback summary. -/
theorem claim8_summary_fallback_witness :
    scrapeAndSummarize parse1 res0 ⟨some (S "http://x/"), some (S "Summarize")⟩ false
        (.response 200 (S "<html>") sampleDom) false benv0 none pages0 summ429 =
      ⟨.success
        { url := S "http://x/"
          methodUsed := S "HTTP"
          summary := rateLimitFallback
          doc := stripDoc (extractFromHtml res0 (S "<html>") sampleDom (S "http://x/")) },
        true, false, true⟩ := by
  have h := (claim8_summary_fallback parse1 res0 (S "http://x/") (S "Summarize") (S "http://x/")
      (.response 200 (S "<html>") sampleDom) benv0 none pages0 summ429 (some 429)
      (stripDoc (extractFromHtml res0 (S "<html>") sampleDom (S "http://x/")))
      (by decide) (by decide) rfl rfl).1 (by decide)
  rw [h]
  decide

/-- C9: the rendered fetcher's only blocked classification is
BLOCKED_OR_EMPTY — it never raises LOGIN_OR_BLOCKED itself (only a driver
exception could carry that text) — and the classifier maps to
LOGIN_REQUIRED only for the browser message LOGIN_OR_BLOCKED, so that
public errorType is unreachable. -/
theorem claim9_login_branch_unreachable :
    (∀ (resolve : Str → Str → Option Str) (benv : BrowserEnv) (nav : Option Str)
        (pages : Nat → Str × List Node) (url : Str) (m : Str),
      nav ≠ some (S "LOGIN_OR_BLOCKED") →
      scrapeWithBrowser resolve benv nav pages url = .err m →
      m ≠ S "LOGIN_OR_BLOCKED") ∧
    (∀ (httpError : Option Str) (browserMsg : Str),
      browserMsg ≠ S "LOGIN_OR_BLOCKED" →
      errorTypeFor httpError browserMsg ≠ S "LOGIN_REQUIRED") := by
  constructor
  · intro resolve benv nav pages url m hnav herr
    simp only [scrapeWithBrowser] at herr
    rcases hexec : resolveExecPath benv with _ | pth
    · rw [hexec] at herr
      simp only [] at herr
      injection herr with hm
      rw [← hm]
      by_cases h : benv.serverless <;> simp only [h, if_true, if_false] <;> decide
    · rw [hexec] at herr
      simp only [] at herr
      by_cases hlen : pth.length = 0
      · rw [if_pos hlen] at herr
        injection herr with hm
        rw [← hm]
        by_cases h : benv.serverless <;> simp only [h, if_true, if_false] <;> decide
      · rw [if_neg hlen] at herr
        rcases nav with _ | msg
        · rcases hgo : browserGo resolve pages url 0 6 with _ | e
          · rw [hgo] at herr
            injection herr with hm
            rw [← hm]
            decide
          · rw [hgo] at herr
            exact absurd herr (by simp)
        · injection herr with hm
          rw [← hm]
          intro hcontra
          exact hnav (by rw [hcontra])
  · intro httpError browserMsg hb
    unfold errorTypeFor
    split_ifs with h1 h2
    · decide
    · decide
    · decide

/-- Witness for C9 at an exhausted-retries browser failure. -/
theorem claim9_login_branch_unreachable_witness :
    (S "BLOCKED_OR_EMPTY" : Str) ≠ S "LOGIN_OR_BLOCKED" ∧
    errorTypeFor (some (S "HTTP_ERROR_403")) (S "BLOCKED_OR_EMPTY") ≠ S "LOGIN_REQUIRED" :=
  ⟨claim9_login_branch_unreachable.1 res0 benv0 none pages0 (S "http://x/")
      (S "BLOCKED_OR_EMPTY") (by decide) (by decide),
   claim9_login_branch_unreachable.2 (some (S "HTTP_ERROR_403")) (S "BLOCKED_OR_EMPTY")
      (by decide)⟩

theorem browserGo_some (resolve : Str → Str → Option Str) (pages : Nat → Str × List Node)
    (url : Str) :
    ∀ (r a : Nat) (e : ExtractedDocument), browserGo resolve pages url a r = some e →
      ∃ i, e = extractFromHtml resolve (pages i).1 (pages i).2 url := by
  intro r
  induction r with
  | zero =>
    intro a e h
    exact absurd h (by simp [browserGo])
  | succ r ih =>
    intro a e h
    unfold browserGo at h
    split at h
    · exact ⟨a, (Option.some.inj h).symm⟩
    · exact ih (a + 1) e h

/-- C10: a successful scrape's `rawHtml` is the entire fetched HTML and each
table/list record's `html` is the full serialization of its source element
(none length-capped), only `_bodyTextLength` is removed from the extraction
result, and a successful orchestrator run merges the scraped document
unchanged into the returned record. -/
theorem claim10_raw_payloads :
    (∀ (resolve : Str → Str → Option Str) (st : Nat) (html : Str) (dom : List Node)
        (url : Str) (doc : PublicDocument),
      scrapeWithHttp resolve (.response st html dom) url = .ok doc →
        doc.rawHtml = html ∧
        doc = stripDoc (extractFromHtml resolve html dom url) ∧
        (∀ t ∈ doc.tables, ∃ n ∈ subtreeElemsList [S "table"] dom, t.html = serializeNode n) ∧
        (∀ l ∈ doc.lists, ∃ n ∈ subtreeElemsList [S "ul", S "ol"] dom,
          l.html = serializeNode n)) ∧
    (∀ (resolve : Str → Str → Option Str) (benv : BrowserEnv) (nav : Option Str)
        (pages : Nat → Str × List Node) (url : Str) (doc : PublicDocument),
      scrapeWithBrowser resolve benv nav pages url = .ok doc →
        ∃ i, doc = stripDoc (extractFromHtml resolve (pages i).1 (pages i).2 url) ∧
          doc.rawHtml = (pages i).1) ∧
    (∀ e : ExtractedDocument,
      (stripDoc e).title = e.title ∧ (stripDoc e).description = e.description ∧
      (stripDoc e).paragraphs = e.paragraphs ∧ (stripDoc e).images = e.images ∧
      (stripDoc e).links = e.links ∧ (stripDoc e).tables = e.tables ∧
      (stripDoc e).lists = e.lists ∧ (stripDoc e).uniqueComponents = e.uniqueComponents ∧
      (stripDoc e).techStack = e.techStack ∧ (stripDoc e).rawHtml = e.rawHtml) ∧
    (∀ (parse : Str → Option UrlParts) (resolve : Str → Str → Option Str)
        (rawUrl nUrl : Str) (ax : AxiosOutcome) (browserTimedOut : Bool)
        (benv : BrowserEnv) (nav : Option Str) (pages : Nat → Str × List Node)
        (summ : Str → SummOutcome) (doc : PublicDocument),
      0 < rawUrl.length → validateScrapeUrl parse rawUrl = .ok nUrl →
      scrapeWithHttp resolve ax nUrl = .ok doc →
      scrapeAndSummarize parse resolve ⟨some rawUrl, none⟩ false ax browserTimedOut
          benv nav pages summ =
        ⟨.success { url := nUrl, methodUsed := S "HTTP", summary := [], doc := doc },
          true, false, false⟩) := by
  refine ⟨?_, ?_, ?_, ?_⟩
  · intro resolve st html dom url doc h
    simp only [scrapeWithHttp] at h
    by_cases h400 : 400 ≤ st
    · rw [if_pos h400] at h
      exact absurd h (by simp)
    · rw [if_neg h400] at h
      by_cases hbl :
          looksBlockedOrJsRequired html (extractFromHtml resolve html dom url) = true
      · rw [if_pos hbl] at h
        exact absurd h (by simp)
      · rw [if_neg hbl] at h
        injection h with hd
        refine ⟨by rw [← hd]; rfl, hd.symm, ?_, ?_⟩
        · intro t ht
          rw [← hd] at ht
          rcases mem_extractTables dom t ht with ⟨n, hn, hmk⟩
          exact ⟨n, hn, (mkTable_bounds n t hmk).2.2.2⟩
        · intro l hl
          rw [← hd] at hl
          rcases mem_extractLists dom l hl with ⟨n, hn, hmk⟩
          exact ⟨n, hn, (mkList_bounds n l hmk).2⟩
  · intro resolve benv nav pages url doc h
    simp only [scrapeWithBrowser] at h
    rcases hexec : resolveExecPath benv with _ | pth
    · rw [hexec] at h
      exact absurd h (by simp)
    · rw [hexec] at h
      simp only [] at h
      by_cases hlen : pth.length = 0
      · rw [if_pos hlen] at h
        exact absurd h (by simp)
      · rw [if_neg hlen] at h
        rcases nav with _ | msg
        · rcases hgo : browserGo resolve pages url 0 6 with _ | e
          · rw [hgo] at h
            exact absurd h (by simp)
          · rw [hgo] at h
            injection h with hd
            rcases browserGo_some resolve pages url 6 0 e hgo with ⟨i, hi⟩
            refine ⟨i, ?_, ?_⟩
            · rw [← hd, hi]
            · rw [← hd, hi]
              rfl
        · exact absurd h (by simp)
  · intro e
    exact ⟨rfl, rfl, rfl, rfl, rfl, rfl, rfl, rfl, rfl, rfl⟩
  · intro parse resolve rawUrl nUrl ax browserTimedOut benv nav pages summ doc hraw hv hok
    have hne : ¬(rawUrl.length = 0) := by omega
    simp [scrapeAndSummarize, hne, hv, hok, scrapeAndSummarize.finishRun, promptTruthy]

/-- Witness for C10 at the sample document. -/
theorem claim10_raw_payloads_witness :
    (stripDoc (extractFromHtml res0 (S "<html>") sampleDom (S "http://x/"))).rawHtml =
      S "<html>" :=
  (claim10_raw_payloads.1 res0 200 (S "<html>") sampleDom (S "http://x/")
      (stripDoc (extractFromHtml res0 (S "<html>") sampleDom (S "http://x/")))
      (by decide)).1

end Scrap
